import Mathlib

/-!
Formal model of the HalloweenPumpkin firmware: the Wi-Fi connection manager
(`src/wifi_connector.py`) and the motion-alert state machine (`src/main.py`),
together with theorems about the retry/backoff logic, the error-report client
and the timer-driven alert state machine.
-/

namespace HalloweenPumpkin

/-! ### Model of `src/wifi_connector.py` -/

/-- Python truthiness of an optional string: `None` and `""` are falsy
(this is what `not self.ssid or not self.password` tests). -/
def pyTruthy : Option String → Bool
  | none => false
  | some s => !s.isEmpty

/-- State of the `network.WLAN(network.STA_IF)` station interface:
whether the interface is activated and whether it is associated. -/
structure Wlan where
  active : Bool
  connected : Bool
  deriving DecidableEq

/-- Outcome of one association attempt, i.e. of `wlan.connect(...)` followed by
`_wait_for_ip`: the association succeeds within the timeout, times out, or the
`connect` call itself raises. -/
inductive AttemptOutcome
  | success
  | timeout
  | connectError
  deriving DecidableEq

/-- The fields of `WiFiManager` after `__init__`. -/
structure WiFiManager where
  ssid : Option String
  password : Option String
  timeout_s : Int
  retries : Int
  backoff_s : Int
  wlan : Wlan
  deriving DecidableEq

/-- `WiFiManager.__init__`: stores `max(1, int(timeout_s))`,
`max(1, int(retries))` and `max(0, int(backoff_s))`. -/
def WiFiManager.init (ssid password : Option String)
    (timeout_s retries backoff_s : Int) (wlan : Wlan) : WiFiManager :=
  { ssid := ssid
    password := password
    timeout_s := max 1 timeout_s
    retries := max 1 retries
    backoff_s := max 0 backoff_s
    wlan := wlan }

/-- `is_connected`: `self.wlan.active() and self.wlan.isconnected()`. -/
def WiFiManager.is_connected (m : WiFiManager) : Bool :=
  m.wlan.active && m.wlan.connected

/-- `_prepare`: `self.wlan.active(True)` (the optional static-IP branch only
calls `wlan.ifconfig` and does not change the connection state). -/
def WiFiManager.prepare (m : WiFiManager) : WiFiManager :=
  { m with wlan := { m.wlan with active := true } }

/-- `_connect_once`: fail immediately when credentials are missing; otherwise
activate the interface, return `True` if already associated, else clear the
stale association (`wlan.disconnect()`), start `wlan.connect(...)` and wait for
an address.  A raise from `connect` and a `_wait_for_ip` timeout (which is
followed by another `wlan.disconnect()`) both yield `False`. -/
def WiFiManager.connect_once (m : WiFiManager) (outcome : AttemptOutcome) :
    WiFiManager × Bool :=
  if !pyTruthy m.ssid || !pyTruthy m.password then
    (m, false)
  else
    let m1 := m.prepare
    if m1.wlan.connected then
      (m1, true)
    else
      let m2 := { m1 with wlan := { m1.wlan with connected := false } }
      match outcome with
      | .success => ({ m2 with wlan := { m2.wlan with connected := true } }, true)
      | .timeout => (m2, false)
      | .connectError => (m2, false)

/-- Result of `_connect_with_retries`: the manager after the loop, the returned
boolean, the number of connection cycles performed, and the list of backoff
delays slept (in seconds, in order). -/
structure RetryResult where
  mgr : WiFiManager
  success : Bool
  attemptsMade : Nat
  delays : List Int
  deriving DecidableEq

/-- The loop of `_connect_with_retries`.  `attempt` is the 1-based loop index
and `remaining` the number of loop iterations still to run, so after matching
`remaining + 1` the Python guard `attempt < self.retries` is exactly
`0 < remaining`.  A delay is slept only under `attempt < retries and delay > 0`,
and only then is the local `delay` doubled and capped: `min(delay * 2, 30)`. -/
def connectLoop (env : Nat → AttemptOutcome) :
    Nat → Nat → Int → WiFiManager → RetryResult
  | _attempt, 0, _delay, m => ⟨m, false, 0, []⟩
  | attempt, remaining + 1, delay, m =>
    let once := m.connect_once (env attempt)
    if once.2 = true then
      ⟨once.1, true, 1, []⟩
    else if 0 < remaining ∧ 0 < delay then
      let r := connectLoop env (attempt + 1) remaining (min (delay * 2) 30) once.1
      ⟨r.mgr, r.success, r.attemptsMade + 1, delay :: r.delays⟩
    else
      let r := connectLoop env (attempt + 1) remaining delay once.1
      ⟨r.mgr, r.success, r.attemptsMade + 1, r.delays⟩

/-- `_connect_with_retries`: `delay = self.backoff_s`, then
`for attempt in range(1, self.retries + 1)`. -/
def WiFiManager.connect_with_retries (m : WiFiManager)
    (env : Nat → AttemptOutcome) : RetryResult :=
  connectLoop env 1 m.retries.toNat m.backoff_s m

/-- `ensure`: return `True` immediately when already connected, otherwise run
`_connect_with_retries`. -/
def WiFiManager.ensure (m : WiFiManager) (env : Nat → AttemptOutcome) :
    RetryResult :=
  if m.is_connected = true then ⟨m, true, 0, []⟩
  else m.connect_with_retries env

/-! ### Model of `src/main.py` -/

/-- `STATE_INIT = 0`, `STATE_IDLE = 1`, `STATE_ACTIVE = 2`. -/
inductive SMState
  | init
  | idle
  | active
  deriving DecidableEq

/-- One of the three `machine.Timer` objects: whether it is armed, the absolute
time (ms) at which it fires next, its mode and its period. -/
structure TimerSlot where
  live : Bool
  deadline : Nat
  periodic : Bool
  period : Nat
  deriving DecidableEq

/-- The global mutable state of `main.py`: `current_state`, the three timers
(`led_flash_timer`, `led_stop_timer`, `cooldown_timer`), the LED output level,
and the current time in milliseconds. -/
structure MainState where
  current : SMState
  ledFlash : TimerSlot
  ledStop : TimerSlot
  cooldown : TimerSlot
  led : Bool
  now : Nat
  deriving DecidableEq

/-- `LED_FLASH_TIME_MS = 21 * 1000`. -/
def LED_FLASH_TIME_MS : Nat := 21 * 1000

/-- `TOTAL_COOLDOWN_MS = 23 * 1000`. -/
def TOTAL_COOLDOWN_MS : Nat := 23 * 1000

/-- A timer object before any `init` call. -/
def deadTimer : TimerSlot := ⟨false, 0, false, 0⟩

/-- The state at program start: `current_state = STATE_INIT`, no timer armed,
LED low. -/
def initState : MainState := ⟨.init, deadTimer, deadTimer, deadTimer, false, 0⟩

/-- Outcome of one `urequests` call: a response with a status code, or a raised
transport exception. -/
inductive HttpOutcome
  | resp (status : Nat)
  | exc (msg : String)
  deriving DecidableEq

/-- `BASE_IP`. -/
def BASE_IP : String := "http://192.168.5.212:5000"

/-- `API_MOTION_ENDPOINT = BASE_IP + "/api/motion_event"`. -/
def API_MOTION_ENDPOINT : String := BASE_IP ++ "/api/motion_event"

/-- `API_LOG_ENDPOINT = BASE_IP + "/api/log_error"`. -/
def API_LOG_ENDPOINT : String := BASE_IP ++ "/api/log_error"

/-- The f-string `f"API Ping Failed: Server returned HTTP {response.status_code}"`. -/
def pingFailStatusMsg (status : Nat) : String :=
  "API Ping Failed: Server returned HTTP " ++ toString status

/-- The f-string `f"API Ping Failed: {e}"`. -/
def pingFailExcMsg (e : String) : String := "API Ping Failed: " ++ e

/-- The f-string `f"API POST Failed: HTTP {response.status_code}"`. -/
def postFailStatusMsg (status : Nat) : String :=
  "API POST Failed: HTTP " ++ toString status

/-- The f-string `f"API POST Failed: {e}"`. -/
def postFailExcMsg (e : String) : String := "API POST Failed: " ++ e

/-- `urequests.post` viewed as a fallible call: a response yields its status
code, a transport fault raises. -/
def urequests_post (out : HttpOutcome) : Except String Nat :=
  match out with
  | .resp s => .ok s
  | .exc e => .error e

/-- `log_error_to_web(error_message)`: if the link is down, print and return
without any request.  Otherwise POST `{device, error}` to `API_LOG_ENDPOINT`
inside `try`; both the 200 and the non-200 branches only print, and the
`except` handler swallows any raise.  The model returns the list of POST
requests attempted, as `(endpoint, error message)` pairs, inside `Except` so
that a propagating exception would show up as `.error`. -/
def log_error_to_web (linkUp : Bool) (out : HttpOutcome)
    (error_message : String) : Except String (List (String × String)) :=
  if linkUp = false then
    .ok []
  else
    match urequests_post out with
    | .ok status =>
        if status = 200 then
          .ok [(API_LOG_ENDPOINT, error_message)]
        else
          .ok [(API_LOG_ENDPOINT, error_message)]
    | .error _e =>
        .ok [(API_LOG_ENDPOINT, error_message)]

/-- `ping_api()`: GET `API_MOTION_ENDPOINT`; 200 yields `True`; any other
status or a raise yields `False` and one `log_error_to_web` call whose message
is returned in the list. -/
def ping_api (resp : HttpOutcome) : Bool × List String :=
  match resp with
  | .resp s => if s = 200 then (true, []) else (false, [pingFailStatusMsg s])
  | .exc e => (false, [pingFailExcMsg e])

/-- `call_api_post()`: POST to `API_MOTION_ENDPOINT`; a non-200 status or a
raise produces one `log_error_to_web` call whose message is returned. -/
def call_api_post (resp : HttpOutcome) : List String :=
  match resp with
  | .resp s => if s = 200 then [] else [postFailStatusMsg s]
  | .exc e => [postFailExcMsg e]

/-- Observable events of one `state_machine_logic()` call, in program order. -/
inductive Event
  | httpPost
  | reportError (msg : String)
  | schedFlash
  | schedStop
  | schedCooldown
  | stateChange (st : SMState)
  deriving DecidableEq

/-- The external inputs consumed by one `state_machine_logic()` call. -/
structure TickInput where
  wifiOk : Bool
  pingResp : HttpOutcome
  postResp : HttpOutcome
  pir : Bool

/-- The motion branch of `STATE_IDLE`:
`led_flash_timer.init(period=100, mode=PERIODIC, ...)`,
`led_stop_timer.init(period=LED_FLASH_TIME_MS, mode=ONE_SHOT, ...)`,
`cooldown_timer.init(period=TOTAL_COOLDOWN_MS, mode=ONE_SHOT, ...)`,
then `current_state = STATE_ACTIVE`.  `D` and `C` are the two duration
constants, kept as parameters. -/
def activate (D C : Nat) (s : MainState) : MainState :=
  { s with
    ledFlash := ⟨true, s.now + 100, true, 100⟩
    ledStop := ⟨true, s.now + D, false, D⟩
    cooldown := ⟨true, s.now + C, false, C⟩
    current := .active }

/-- `state_machine_logic()`: the main tick.  Returns the new global state and
the list of observable events of this call, in the order the code performs
them. -/
def state_machine_logic (D C : Nat) (inp : TickInput) (s : MainState) :
    MainState × List Event :=
  match s.current with
  | .init =>
    if inp.wifiOk = false then
      (s, [])
    else
      let p := ping_api inp.pingResp
      if p.1 = false then
        (s, p.2.map Event.reportError)
      else
        ({ s with led := false, current := .idle },
         p.2.map Event.reportError ++ [Event.stateChange .idle])
  | .idle =>
    if inp.pir = true then
      (activate D C s,
       Event.httpPost :: (call_api_post inp.postResp).map Event.reportError
         ++ [Event.schedFlash, Event.schedStop, Event.schedCooldown,
             Event.stateChange .active])
    else
      (s, [])
  | .active => (s, [])

/-- `toggle_led_callback` together with the periodic timer re-arming itself:
the LED is driven by the random draw and the flash timer's next deadline is one
period later. -/
def fireFlashFn (rnd : Bool) (s : MainState) : MainState :=
  { s with
    led := rnd
    ledFlash := { s.ledFlash with deadline := s.now + s.ledFlash.period } }

/-- `stop_flashing_callback` on the one-shot `led_stop_timer`: the one-shot
retires, `led_flash_timer.deinit()`, `led.value(0)`. -/
def fireStopFn (s : MainState) : MainState :=
  { s with
    ledStop := { s.ledStop with live := false }
    ledFlash := { s.ledFlash with live := false }
    led := false }

/-- `set_state_idle_callback` on the one-shot `cooldown_timer`: the one-shot
retires and `current_state = STATE_IDLE`. -/
def fireCooldownFn (s : MainState) : MainState :=
  { s with
    cooldown := { s.cooldown with live := false }
    current := .idle }

/-- No armed timer is due at the current instant (time may only advance past an
instant after every timer due at it has fired). -/
def noPendingAt (s : MainState) : Prop :=
  (s.ledFlash.live = true → s.ledFlash.deadline ≠ s.now) ∧
  (s.ledStop.live = true → s.ledStop.deadline ≠ s.now) ∧
  (s.cooldown.live = true → s.cooldown.deadline ≠ s.now)

instance (s : MainState) : Decidable (noPendingAt s) := by
  unfold noPendingAt; infer_instance

/-- Small-step semantics of the firmware: a main-loop tick, the advance of the
millisecond clock, or the hardware firing of one due timer. -/
inductive Step (D C : Nat) : MainState → MainState → Prop
  | tick (inp : TickInput) (s : MainState) :
      Step D C s (state_machine_logic D C inp s).1
  | advance (s : MainState) :
      noPendingAt s → Step D C s { s with now := s.now + 1 }
  | fireFlash (s : MainState) (rnd : Bool) :
      s.ledFlash.live = true → s.ledFlash.deadline = s.now →
      Step D C s (fireFlashFn rnd s)
  | fireStop (s : MainState) :
      s.ledStop.live = true → s.ledStop.deadline = s.now →
      Step D C s (fireStopFn s)
  | fireCooldown (s : MainState) :
      s.cooldown.live = true → s.cooldown.deadline = s.now →
      Step D C s (fireCooldownFn s)

/-- States reachable from program start. -/
inductive Reachable (D C : Nat) : MainState → Prop
  | refl : Reachable D C initState
  | step {s s' : MainState} : Reachable D C s → Step D C s s' → Reachable D C s'

/-! ### Concrete scenarios -/

/-- Every association attempt times out. -/
def envTO : Nat → AttemptOutcome := fun _ => .timeout

/-- Every association attempt would succeed. -/
def envOK : Nat → AttemptOutcome := fun _ => .success

/-- A manager with the default configuration (`timeout_s=15, retries=3,
backoff_s=2`) and a disconnected interface. -/
def mDef : WiFiManager := WiFiManager.init (some "a") (some "b") 15 3 2 ⟨false, false⟩

/-- A manager configured with `backoff_s = 31`, above the 30 s cap. -/
def m31 : WiFiManager := WiFiManager.init (some "a") (some "b") 15 2 31 ⟨false, false⟩

/-- A manager whose ssid is missing. -/
def mMiss : WiFiManager := WiFiManager.init none (some "pw") 15 3 2 ⟨false, false⟩

/-- A manager whose interface is already active and associated. -/
def mConn : WiFiManager := WiFiManager.init (some "a") (some "b") 15 3 2 ⟨true, true⟩

/-- Boot tick inputs: Wi-Fi up, ping answered 200, no motion. -/
def inpInitOk : TickInput := ⟨true, .resp 200, .resp 200, false⟩

/-- Idle tick inputs: motion detected, motion POST answered 200. -/
def inpMotion : TickInput := ⟨true, .resp 200, .resp 200, true⟩

/-- Boot tick inputs: Wi-Fi up but the liveness GET answered 404. -/
def inpPing404 : TickInput := ⟨true, .resp 404, .resp 200, false⟩

/-- The state after a successful boot tick (shipped constants). -/
def demoIdle : MainState :=
  (state_machine_logic LED_FLASH_TIME_MS TOTAL_COOLDOWN_MS inpInitOk initState).1

/-- The state after a motion tick from `demoIdle` (shipped constants). -/
def demoActive : MainState :=
  (state_machine_logic LED_FLASH_TIME_MS TOTAL_COOLDOWN_MS inpMotion demoIdle).1

/-- The events of the motion tick from `demoIdle` (shipped constants). -/
def demoMotionEvents : List Event :=
  (state_machine_logic LED_FLASH_TIME_MS TOTAL_COOLDOWN_MS inpMotion demoIdle).2

/-- Boot tick with the misconfigured durations `D = 2, C = 1`. -/
def demoIdleS : MainState := (state_machine_logic 2 1 inpInitOk initState).1

/-- Motion tick with `D = 2, C = 1`. -/
def demoActiveS : MainState := (state_machine_logic 2 1 inpMotion demoIdleS).1

/-- One millisecond later: the cooldown (deadline 1) is due, the flash-stop
timer (deadline 2) is not. -/
def demoAdvS : MainState := { demoActiveS with now := demoActiveS.now + 1 }

/-- The state after the cooldown fires with `D = 2, C = 1`: back in `Idle`
with the flash-toggle timer still armed. -/
def demoBadIdle : MainState := fireCooldownFn demoAdvS

/-! ### Lemmas about the retry loop -/

theorem one_le_two_pow_int (j : Nat) : (1 : Int) ≤ 2 ^ j := by
  induction j with
  | zero => norm_num
  | succ n ih => rw [pow_succ]; nlinarith

/-- Doubling a capped delay and capping again is the same as capping the
doubled uncapped delay. -/
theorem min_double_pow (d : Int) (j : Nat) :
    min (min (d * 2) 30 * 2 ^ j) 30 = min (d * 2 ^ (j + 1)) 30 := by
  have h2 : (1 : Int) ≤ 2 ^ j := one_le_two_pow_int j
  have hpow : d * 2 ^ (j + 1) = d * 2 * 2 ^ j := by ring
  rcases le_or_lt (d * 2) 30 with h | h
  · rw [min_eq_left h, hpow]
  · rw [min_eq_right h.le, hpow]
    have h30 : (30 : Int) ≤ 30 * 2 ^ j := le_mul_of_one_le_right (by norm_num) h2
    have hd : (30 : Int) ≤ d * 2 * 2 ^ j := by nlinarith
    rw [min_eq_right h30, min_eq_right hd]

theorem connectLoop_attempts_le (env : Nat → AttemptOutcome) :
    ∀ (remaining attempt : Nat) (delay : Int) (m : WiFiManager),
      (connectLoop env attempt remaining delay m).attemptsMade ≤ remaining := by
  intro remaining
  induction remaining with
  | zero => intro attempt delay m; simp [connectLoop]
  | succ r ih =>
    intro attempt delay m
    simp only [connectLoop]
    by_cases h1 : (m.connect_once (env attempt)).2 = true
    · simp [h1]
    · rw [if_neg h1]
      by_cases h2 : 0 < r ∧ 0 < delay
      · rw [if_pos h2]
        exact Nat.succ_le_succ (ih (attempt + 1) _ _)
      · rw [if_neg h2]
        exact Nat.succ_le_succ (ih (attempt + 1) _ _)

theorem connectLoop_attempts_pos (env : Nat → AttemptOutcome) :
    ∀ (remaining attempt : Nat) (delay : Int) (m : WiFiManager),
      0 < remaining → 0 < (connectLoop env attempt remaining delay m).attemptsMade := by
  intro remaining
  cases remaining with
  | zero => intro attempt delay m h; exact absurd h (by simp)
  | succ r =>
    intro attempt delay m _
    simp only [connectLoop]
    by_cases h1 : (m.connect_once (env attempt)).2 = true
    · simp [h1]
    · rw [if_neg h1]
      by_cases h2 : 0 < r ∧ 0 < delay
      · rw [if_pos h2]; exact Nat.succ_pos _
      · rw [if_neg h2]; exact Nat.succ_pos _

/-- The i-th delay slept by the loop, started with local delay `d`, is `d`
itself for `i = 0` and `min (d * 2 ^ i) 30` afterwards. -/
theorem connectLoop_delays_getD (env : Nat → AttemptOutcome) :
    ∀ (remaining attempt : Nat) (delay : Int) (m : WiFiManager) (i : Nat),
      i < (connectLoop env attempt remaining delay m).delays.length →
      (connectLoop env attempt remaining delay m).delays.getD i 0 =
        if i = 0 then delay else min (delay * 2 ^ i) 30 := by
  intro remaining
  induction remaining with
  | zero =>
    intro attempt delay m i hi
    simp [connectLoop] at hi
  | succ r ih =>
    intro attempt delay m i hi
    simp only [connectLoop] at hi ⊢
    by_cases h1 : (m.connect_once (env attempt)).2 = true
    · rw [if_pos h1] at hi
      simp at hi
    · rw [if_neg h1] at hi ⊢
      by_cases h2 : 0 < r ∧ 0 < delay
      · rw [if_pos h2] at hi ⊢
        cases i with
        | zero => simp
        | succ j =>
          have hj : j < (connectLoop env (attempt + 1) r (min (delay * 2) 30)
              (m.connect_once (env attempt)).1).delays.length := by
            simpa using hi
          have hrec := ih (attempt + 1) (min (delay * 2) 30)
            (m.connect_once (env attempt)).1 j hj
          show (connectLoop env (attempt + 1) r (min (delay * 2) 30)
              (m.connect_once (env attempt)).1).delays.getD j 0 = _
          rw [hrec, if_neg (Nat.succ_ne_zero j)]
          cases j with
          | zero => simp
          | succ k =>
            rw [if_neg (Nat.succ_ne_zero k)]
            exact min_double_pow delay (k + 1)
      · rw [if_neg h2] at hi ⊢
        exact ih (attempt + 1) delay (m.connect_once (env attempt)).1 i hi

/-- Fewer delays than cycles: there is never a delay after the last cycle. -/
theorem connectLoop_delays_lt (env : Nat → AttemptOutcome) :
    ∀ (remaining attempt : Nat) (delay : Int) (m : WiFiManager),
      (connectLoop env attempt remaining delay m).delays.length <
        (connectLoop env attempt remaining delay m).attemptsMade ∨
      ((connectLoop env attempt remaining delay m).attemptsMade = 0 ∧
        (connectLoop env attempt remaining delay m).delays = []) := by
  intro remaining
  induction remaining with
  | zero => intro attempt delay m; right; simp [connectLoop]
  | succ r ih =>
    intro attempt delay m
    simp only [connectLoop]
    by_cases h1 : (m.connect_once (env attempt)).2 = true
    · rw [if_pos h1]; left; simp
    · rw [if_neg h1]
      by_cases h2 : 0 < r ∧ 0 < delay
      · rw [if_pos h2]
        left
        have hpos := connectLoop_attempts_pos env r (attempt + 1)
          (min (delay * 2) 30) (m.connect_once (env attempt)).1 h2.1
        rcases ih (attempt + 1) (min (delay * 2) 30) (m.connect_once (env attempt)).1 with h | h
        · simpa using Nat.succ_lt_succ h
        · omega
      · rw [if_neg h2]
        rcases ih (attempt + 1) delay (m.connect_once (env attempt)).1 with h | h
        · left; simpa using Nat.lt_succ_of_lt h
        · left; simp [h.2]

/-- Every delay the loop sleeps is positive (the guard requires `delay > 0`). -/
theorem connectLoop_delays_pos (env : Nat → AttemptOutcome) :
    ∀ (remaining attempt : Nat) (delay : Int) (m : WiFiManager) (x : Int),
      x ∈ (connectLoop env attempt remaining delay m).delays → 0 < x := by
  intro remaining
  induction remaining with
  | zero => intro attempt delay m x hx; simp [connectLoop] at hx
  | succ r ih =>
    intro attempt delay m x hx
    simp only [connectLoop] at hx
    by_cases h1 : (m.connect_once (env attempt)).2 = true
    · rw [if_pos h1] at hx; simp at hx
    · rw [if_neg h1] at hx
      by_cases h2 : 0 < r ∧ 0 < delay
      · rw [if_pos h2] at hx
        rcases (by simpa using hx : x = delay ∨
            x ∈ (connectLoop env (attempt + 1) r (min (delay * 2) 30)
              (m.connect_once (env attempt)).1).delays) with h | h
        · exact h ▸ h2.2
        · exact ih (attempt + 1) _ _ x h
      · rw [if_neg h2] at hx
        exact ih (attempt + 1) delay (m.connect_once (env attempt)).1 x hx

/-- `_connect_once` only touches the interface: the stored configuration is
untouched. -/
theorem connect_once_config (m : WiFiManager) (o : AttemptOutcome) :
    (m.connect_once o).1.ssid = m.ssid ∧
    (m.connect_once o).1.password = m.password ∧
    (m.connect_once o).1.timeout_s = m.timeout_s ∧
    (m.connect_once o).1.retries = m.retries ∧
    (m.connect_once o).1.backoff_s = m.backoff_s := by
  unfold WiFiManager.connect_once WiFiManager.prepare
  cases o <;> dsimp only <;> split_ifs <;> simp

theorem connectLoop_config (env : Nat → AttemptOutcome) :
    ∀ (remaining attempt : Nat) (delay : Int) (m : WiFiManager),
      (connectLoop env attempt remaining delay m).mgr.ssid = m.ssid ∧
      (connectLoop env attempt remaining delay m).mgr.password = m.password ∧
      (connectLoop env attempt remaining delay m).mgr.timeout_s = m.timeout_s ∧
      (connectLoop env attempt remaining delay m).mgr.retries = m.retries ∧
      (connectLoop env attempt remaining delay m).mgr.backoff_s = m.backoff_s := by
  intro remaining
  induction remaining with
  | zero => intro attempt delay m; simp [connectLoop]
  | succ r ih =>
    intro attempt delay m
    have hco := connect_once_config m (env attempt)
    simp only [connectLoop]
    by_cases h1 : (m.connect_once (env attempt)).2 = true
    · rw [if_pos h1]
      exact hco
    · rw [if_neg h1]
      by_cases h2 : 0 < r ∧ 0 < delay
      · rw [if_pos h2]
        have hrec := ih (attempt + 1) (min (delay * 2) 30) (m.connect_once (env attempt)).1
        exact ⟨hrec.1.trans hco.1, hrec.2.1.trans hco.2.1, hrec.2.2.1.trans hco.2.2.1,
          hrec.2.2.2.1.trans hco.2.2.2.1, hrec.2.2.2.2.trans hco.2.2.2.2⟩
      · rw [if_neg h2]
        have hrec := ih (attempt + 1) delay (m.connect_once (env attempt)).1
        exact ⟨hrec.1.trans hco.1, hrec.2.1.trans hco.2.1, hrec.2.2.1.trans hco.2.2.1,
          hrec.2.2.2.1.trans hco.2.2.2.1, hrec.2.2.2.2.trans hco.2.2.2.2⟩

/-- `ensure` never modifies the stored configuration. -/
theorem ensure_config (m : WiFiManager) (env : Nat → AttemptOutcome) :
    (m.ensure env).mgr.timeout_s = m.timeout_s ∧
    (m.ensure env).mgr.retries = m.retries ∧
    (m.ensure env).mgr.backoff_s = m.backoff_s := by
  unfold WiFiManager.ensure WiFiManager.connect_with_retries
  split_ifs with h
  · exact ⟨rfl, rfl, rfl⟩
  · have := connectLoop_config env m.retries.toNat 1 m.backoff_s m
    exact ⟨this.2.2.1, this.2.2.2.1, this.2.2.2.2⟩

/-- With missing credentials `_connect_once` fails before touching anything. -/
theorem connect_once_missing_creds (m : WiFiManager) (o : AttemptOutcome)
    (h : pyTruthy m.ssid = false ∨ pyTruthy m.password = false) :
    m.connect_once o = (m, false) := by
  rcases h with h | h <;> simp [WiFiManager.connect_once, h]

/-- With missing credentials the loop still performs every cycle, each failing
at the credentials check, and the manager comes out unchanged. -/
theorem connectLoop_missing_creds (env : Nat → AttemptOutcome)
    (m : WiFiManager)
    (h : pyTruthy m.ssid = false ∨ pyTruthy m.password = false) :
    ∀ (remaining attempt : Nat) (delay : Int),
      (connectLoop env attempt remaining delay m).success = false ∧
      (connectLoop env attempt remaining delay m).attemptsMade = remaining ∧
      (connectLoop env attempt remaining delay m).mgr = m := by
  intro remaining
  induction remaining with
  | zero => intro attempt delay; simp [connectLoop]
  | succ r ih =>
    intro attempt delay
    have hco := connect_once_missing_creds m (env attempt) h
    simp only [connectLoop, hco]
    by_cases h2 : 0 < r ∧ 0 < delay
    · simp only [if_neg (by simp : ¬(false = true)), if_pos h2]
      have := ih (attempt + 1) (min (delay * 2) 30)
      exact ⟨this.1, by rw [this.2.1], this.2.2⟩
    · simp only [if_neg (by simp : ¬(false = true)), if_neg h2]
      have := ih (attempt + 1) delay
      exact ⟨this.1, by rw [this.2.1], this.2.2⟩

/-- With missing credentials and a positive starting delay, the loop sleeps a
backoff delay after every cycle but the last: exactly `remaining - 1` delays. -/
theorem connectLoop_missing_creds_delays (env : Nat → AttemptOutcome)
    (m : WiFiManager)
    (h : pyTruthy m.ssid = false ∨ pyTruthy m.password = false) :
    ∀ (remaining attempt : Nat) (delay : Int), 0 < delay →
      (connectLoop env attempt remaining delay m).delays.length = remaining - 1 := by
  intro remaining
  induction remaining with
  | zero => intro attempt delay hd; simp [connectLoop]
  | succ r ih =>
    intro attempt delay hd
    have hco := connect_once_missing_creds m (env attempt) h
    simp only [connectLoop, hco]
    by_cases h2 : 0 < r
    · rw [if_neg (by simp : ¬(false = true)), if_pos ⟨h2, hd⟩]
      have hdd : 0 < min (delay * 2) 30 := by
        have hd2 : (0 : Int) < delay * 2 := by omega
        exact lt_min hd2 (by norm_num)
      have hrec := ih (attempt + 1) (min (delay * 2) 30) hdd
      show ((connectLoop env (attempt + 1) r (min (delay * 2) 30) m).delays.length + 1) = r + 1 - 1
      omega
    · have hr0 : r = 0 := by omega
      subst hr0
      rw [if_neg (by simp : ¬(false = true)),
        if_neg (by simp : ¬((0 : Nat) < 0 ∧ 0 < delay))]
      simp [connectLoop]

/-- With credentials present, a disassociated interface and a failing attempt,
`_connect_once` leaves the interface activated but not associated. -/
theorem connect_once_fail (m : WiFiManager) (o : AttemptOutcome)
    (hs : pyTruthy m.ssid = true) (hp : pyTruthy m.password = true)
    (hc : m.wlan.connected = false) (ho : o ≠ .success) :
    m.connect_once o = ({ m with wlan := ⟨true, false⟩ }, false) := by
  cases o with
  | success => exact absurd rfl ho
  | timeout => simp [WiFiManager.connect_once, WiFiManager.prepare, hs, hp, hc]
  | connectError => simp [WiFiManager.connect_once, WiFiManager.prepare, hs, hp, hc]

/-- When every attempt fails, the loop fails after exactly `remaining` cycles
and, as soon as at least one cycle ran, leaves the interface activated but
disassociated. -/
theorem connectLoop_all_fail (env : Nat → AttemptOutcome)
    (hf : ∀ n, env n ≠ .success) :
    ∀ (remaining attempt : Nat) (delay : Int) (m : WiFiManager),
      pyTruthy m.ssid = true → pyTruthy m.password = true →
      m.wlan.connected = false →
      (connectLoop env attempt remaining delay m).success = false ∧
      (connectLoop env attempt remaining delay m).attemptsMade = remaining ∧
      (0 < remaining →
        (connectLoop env attempt remaining delay m).mgr.wlan = ⟨true, false⟩) := by
  intro remaining
  induction remaining with
  | zero => intro attempt delay m _ _ _; simp [connectLoop]
  | succ r ih =>
    intro attempt delay m hs hp hc
    have hco := connect_once_fail m (env attempt) hs hp hc (hf attempt)
    have hm1s : ({ m with wlan := ⟨true, false⟩ } : WiFiManager).ssid = m.ssid := rfl
    have hm1p : ({ m with wlan := ⟨true, false⟩ } : WiFiManager).password = m.password := rfl
    simp only [connectLoop, hco]
    by_cases h2 : 0 < r ∧ 0 < delay
    · simp only [if_neg (by simp : ¬(false = true)), if_pos h2]
      have hrec := ih (attempt + 1) (min (delay * 2) 30) { m with wlan := ⟨true, false⟩ }
        (hm1s ▸ hs) (hm1p ▸ hp) rfl
      refine ⟨hrec.1, by rw [hrec.2.1], fun _ => hrec.2.2 h2.1⟩
    · simp only [if_neg (by simp : ¬(false = true)), if_neg h2]
      rcases Nat.eq_zero_or_pos r with hr | hr
      · subst hr
        simp [connectLoop]
      · have hrec := ih (attempt + 1) delay { m with wlan := ⟨true, false⟩ }
          (hm1s ▸ hs) (hm1p ▸ hp) rfl
        refine ⟨hrec.1, by rw [hrec.2.1], fun _ => hrec.2.2 hr⟩

/-! ### Claim C1 -/

/-- C1 (counterexample): with `backoff_s = 31` (a legal configuration) the
delay slept before the first retry is 31 s, not
`min(backoff_s * 2^(1-1), 30) = 30`.  The 30 s cap is applied only when the
local delay is doubled, so the first backoff delay is uncapped. -/
theorem C1_backoff_counterexample :
    ¬ ((m31.ensure envTO).delays.getD 0 0 = min ((31 : Int) * 2 ^ 0) 30) := by
  decide

/-- C1 (amended): `ensure()` performs at most `retries` connection cycles and
never sleeps after the final cycle; the delay before the first retry is
`backoff_s` itself (uncapped), and before the n-th retry for n ≥ 2 it is
`min(backoff_s * 2^(n-1), 30)`. -/
theorem C1_backoff_amended (env : Nat → AttemptOutcome) (m : WiFiManager) :
    (m.ensure env).attemptsMade ≤ m.retries.toNat ∧
    (∀ i, i < (m.ensure env).delays.length →
      (m.ensure env).delays.getD i 0 =
        if i = 0 then m.backoff_s else min (m.backoff_s * 2 ^ i) 30) ∧
    ((m.ensure env).delays.length < (m.ensure env).attemptsMade ∨
      (m.ensure env).delays = []) := by
  unfold WiFiManager.ensure WiFiManager.connect_with_retries
  split_ifs with h
  · exact ⟨Nat.zero_le _, by simp, Or.inr rfl⟩
  · refine ⟨connectLoop_attempts_le env m.retries.toNat 1 m.backoff_s m,
      connectLoop_delays_getD env m.retries.toNat 1 m.backoff_s m, ?_⟩
    rcases connectLoop_delays_lt env m.retries.toNat 1 m.backoff_s m with h | h
    · exact Or.inl h
    · exact Or.inr h.2

/-- C1 (witness): with the default configuration and every attempt timing out,
the delay before the second retry is `min(2 * 2^1, 30) = 4` s. -/
theorem C1_backoff_amended_witness :
    (mDef.ensure envTO).delays.getD 1 0 =
      if 1 = 0 then mDef.backoff_s else min (mDef.backoff_s * 2 ^ 1) 30 :=
  (C1_backoff_amended envTO mDef).2.1 1 (by decide)

/-! ### Claim C2 -/

/-- C2 (counterexample): with the ssid missing (and default `retries = 3`,
`backoff_s = 2`) `ensure()` does return false, but it consumes all three
cycles and sleeps the backoff delays 2 s and 4 s — not zero cycles and no
delay as claimed. -/
theorem C2_missing_creds_counterexample :
    (mMiss.ensure envOK).attemptsMade = 3 ∧
    (mMiss.ensure envOK).delays = [2, 4] ∧
    ¬ ((mMiss.ensure envOK).attemptsMade = 0 ∧ (mMiss.ensure envOK).delays = []) := by
  decide

/-- C2 (amended): with missing credentials and a not-connected interface,
`ensure()` returns false on the first call, but the retry loop still runs all
`retries` cycles — each failing immediately at the credentials check, without
touching the interface or any other field — and the usual backoff delays are
incurred between cycles: for a positive `backoff_s`, one delay after every
cycle but the last (`retries - 1` of them), following the usual backoff
sequence. -/
theorem C2_missing_creds_amended (env : Nat → AttemptOutcome) (m : WiFiManager)
    (hmiss : pyTruthy m.ssid = false ∨ pyTruthy m.password = false)
    (hconn : m.is_connected = false) :
    (m.ensure env).success = false ∧
    (m.ensure env).attemptsMade = m.retries.toNat ∧
    (m.ensure env).mgr = m ∧
    (0 < m.backoff_s → (m.ensure env).delays.length = m.retries.toNat - 1) ∧
    (∀ i, i < (m.ensure env).delays.length →
      (m.ensure env).delays.getD i 0 =
        if i = 0 then m.backoff_s else min (m.backoff_s * 2 ^ i) 30) := by
  unfold WiFiManager.ensure WiFiManager.connect_with_retries
  rw [if_neg (by simp [hconn])]
  have hbase := connectLoop_missing_creds env m hmiss m.retries.toNat 1 m.backoff_s
  refine ⟨hbase.1, hbase.2.1, hbase.2.2, ?_,
    connectLoop_delays_getD env m.retries.toNat 1 m.backoff_s m⟩
  intro hb
  exact connectLoop_missing_creds_delays env m hmiss m.retries.toNat 1 m.backoff_s hb

/-- C2 (witness): the manager with a missing ssid consumes all
`retries.toNat = 3` cycles and sleeps `3 - 1 = 2` backoff delays, the second
being `min(2 * 2^1, 30) = 4` s. -/
theorem C2_missing_creds_amended_witness :
    (mMiss.ensure envOK).attemptsMade = mMiss.retries.toNat ∧
    (mMiss.ensure envOK).delays.length = mMiss.retries.toNat - 1 ∧
    (mMiss.ensure envOK).delays.getD 1 0 =
      if 1 = 0 then mMiss.backoff_s else min (mMiss.backoff_s * 2 ^ 1) 30 := by
  have h := C2_missing_creds_amended envOK mMiss (by decide) (by decide)
  exact ⟨h.2.1, h.2.2.2.1 (by decide), h.2.2.2.2 1 (by decide)⟩

/-! ### Claim C7 -/

/-- C7 (counterexample): after all retries fail (every attempt times out), the
interface is NOT deactivated: `_connect_once` calls `wlan.disconnect()` on
failure but never `wlan.active(False)`, so the interface is left active. -/
theorem C7_deactivation_counterexample :
    ¬ ((mDef.ensure envTO).mgr.wlan.active = false) := by
  decide

/-- C7 (amended): when every connection cycle fails, `ensure()` returns false
after exactly `retries` cycles and leaves the wireless interface disassociated
(`connected = false`) but still activated (`active = true`); it is not retried
further. -/
theorem C7_deactivation_amended (env : Nat → AttemptOutcome) (m : WiFiManager)
    (hs : pyTruthy m.ssid = true) (hp : pyTruthy m.password = true)
    (hc : m.wlan.connected = false) (hr : 1 ≤ m.retries)
    (hf : ∀ n, env n ≠ .success) :
    (m.ensure env).success = false ∧
    (m.ensure env).mgr.wlan.active = true ∧
    (m.ensure env).mgr.wlan.connected = false ∧
    (m.ensure env).attemptsMade = m.retries.toNat := by
  unfold WiFiManager.ensure WiFiManager.connect_with_retries
  rw [if_neg (by simp [WiFiManager.is_connected, hc])]
  have hrem : 0 < m.retries.toNat := by omega
  have hloop := connectLoop_all_fail env hf m.retries.toNat 1 m.backoff_s m hs hp hc
  refine ⟨hloop.1, ?_, ?_, hloop.2.1⟩
  · rw [hloop.2.2 hrem]
  · rw [hloop.2.2 hrem]

/-- C7 (witness): the default manager with all attempts timing out ends with
the interface still active. -/
theorem C7_deactivation_amended_witness :
    (mDef.ensure envTO).mgr.wlan.active = true :=
  (C7_deactivation_amended envTO mDef (by decide) (by decide) (by decide)
    (by decide) (fun n => by simp [envTO])).2.1

/-! ### Claim C10 -/

/-- C10 (counterexample): on a manager whose interface is already active and
associated, `ensure()` returns immediately and performs zero connection
attempts — so not every `ensure()` call performs at least one attempt. -/
theorem C10_normalization_counterexample :
    ¬ (1 ≤ (mConn.ensure envTO).attemptsMade) := by
  decide

/-- C10 (amended): after construction `timeout_s ≥ 1`, `retries ≥ 1` and
`backoff_s ≥ 0` hold (out-of-range inputs are clamped), `ensure()` never
modifies these fields, every `ensure()` call on a not-connected interface
performs at least one connection attempt, and every backoff delay slept is
positive (never negative). -/
theorem C10_normalization_amended (ssid password : Option String)
    (t r b : Int) (w : Wlan) (env : Nat → AttemptOutcome) (m : WiFiManager)
    (hm : m = WiFiManager.init ssid password t r b w) :
    1 ≤ m.timeout_s ∧ 1 ≤ m.retries ∧ 0 ≤ m.backoff_s ∧
    (m.ensure env).mgr.timeout_s = m.timeout_s ∧
    (m.ensure env).mgr.retries = m.retries ∧
    (m.ensure env).mgr.backoff_s = m.backoff_s ∧
    (m.is_connected = false → 1 ≤ (m.ensure env).attemptsMade) ∧
    (∀ x ∈ (m.ensure env).delays, 0 < x) := by
  have hcfg := ensure_config m env
  refine ⟨?_, ?_, ?_, hcfg.1, hcfg.2.1, hcfg.2.2, ?_, ?_⟩
  · rw [hm]; exact le_max_left 1 t
  · rw [hm]; exact le_max_left 1 r
  · rw [hm]; exact le_max_left 0 b
  · intro hnc
    have hr : 1 ≤ m.retries := by rw [hm]; exact le_max_left 1 r
    unfold WiFiManager.ensure WiFiManager.connect_with_retries
    rw [if_neg (by simp [hnc])]
    exact connectLoop_attempts_pos env m.retries.toNat 1 m.backoff_s m (by omega)
  · intro x hx
    unfold WiFiManager.ensure WiFiManager.connect_with_retries at hx
    by_cases hic : m.is_connected = true
    · rw [if_pos hic] at hx; simp at hx
    · rw [if_neg hic] at hx
      exact connectLoop_delays_pos env m.retries.toNat 1 m.backoff_s m x hx

/-- C10 (witness): the default manager (constructed not connected) performs at
least one attempt. -/
theorem C10_normalization_amended_witness :
    1 ≤ (mDef.ensure envTO).attemptsMade :=
  (C10_normalization_amended (some "a") (some "b") 15 3 2 ⟨false, false⟩ envTO
    mDef rfl).2.2.2.2.2.2.1 (by decide)

/-! ### Invariants of the alert state machine -/

/-- A live timer is never past due. -/
def TimerOk (now : Nat) (t : TimerSlot) : Prop := t.live = true → now ≤ t.deadline

/-- The inductive invariant of the alert state machine: live timers are not
past due, `Active` implies a live cooldown timer, and while the cooldown and
the flash-toggle timers are both live the flash-stop timer is live with a
strictly earlier deadline. -/
structure Inv (s : MainState) : Prop where
  flashOk : TimerOk s.now s.ledFlash
  stopOk : TimerOk s.now s.ledStop
  cdOk : TimerOk s.now s.cooldown
  activeCd : s.current = .active → s.cooldown.live = true
  flashBounded : s.cooldown.live = true → s.ledFlash.live = true →
    s.ledStop.live = true ∧ s.ledStop.deadline < s.cooldown.deadline

theorem inv_initState : Inv initState := by
  refine ⟨?_, ?_, ?_, ?_, ?_⟩ <;> intro h <;> exact absurd h (by decide)

theorem inv_tick {D C : Nat} (hDC : D < C) {s : MainState} (hs : Inv s)
    (inp : TickInput) : Inv (state_machine_logic D C inp s).1 := by
  unfold state_machine_logic
  cases hcur : s.current with
  | init =>
    dsimp only
    split_ifs with h1 h2
    · exact hs
    · exact hs
    · show Inv { s with led := false, current := SMState.idle }
      exact ⟨hs.flashOk, hs.stopOk, hs.cdOk, fun h => by simp at h,
        hs.flashBounded⟩
  | idle =>
    dsimp only
    split_ifs with h1
    · show Inv (activate D C s)
      unfold activate
      refine ⟨?_, ?_, ?_, ?_, ?_⟩
      · intro _; exact Nat.le_add_right _ _
      · intro _; exact Nat.le_add_right _ _
      · intro _; exact Nat.le_add_right _ _
      · intro _; rfl
      · intro _ _
        refine ⟨rfl, ?_⟩
        show s.now + D < s.now + C
        omega
    · exact hs
  | active => exact hs

theorem inv_advance {s : MainState} (hs : Inv s) (hnp : noPendingAt s) :
    Inv { s with now := s.now + 1 } := by
  obtain ⟨h1, h2, h3⟩ := hnp
  refine ⟨?_, ?_, ?_, hs.activeCd, hs.flashBounded⟩
  · intro hl
    have ha := hs.flashOk hl
    have hb := h1 hl
    show s.now + 1 ≤ s.ledFlash.deadline
    omega
  · intro hl
    have ha := hs.stopOk hl
    have hb := h2 hl
    show s.now + 1 ≤ s.ledStop.deadline
    omega
  · intro hl
    have ha := hs.cdOk hl
    have hb := h3 hl
    show s.now + 1 ≤ s.cooldown.deadline
    omega

theorem inv_fireFlash {s : MainState} (hs : Inv s) (rnd : Bool) :
    Inv (fireFlashFn rnd s) := by
  refine ⟨?_, hs.stopOk, hs.cdOk, hs.activeCd, ?_⟩
  · intro _; exact Nat.le_add_right _ _
  · intro hc hf; exact hs.flashBounded hc hf

theorem inv_fireStop {s : MainState} (hs : Inv s) : Inv (fireStopFn s) := by
  refine ⟨?_, ?_, hs.cdOk, hs.activeCd, ?_⟩
  · intro hl; exact absurd hl (by simp [fireStopFn])
  · intro hl; exact absurd hl (by simp [fireStopFn])
  · intro _ hf; exact absurd hf (by simp [fireStopFn])

theorem inv_fireCooldown {s : MainState} (hs : Inv s) : Inv (fireCooldownFn s) := by
  refine ⟨hs.flashOk, hs.stopOk, ?_, ?_, ?_⟩
  · intro hl; exact absurd hl (by simp [fireCooldownFn])
  · intro h; exact absurd h (by simp [fireCooldownFn])
  · intro hc _; exact absurd hc (by simp [fireCooldownFn])

theorem inv_step {D C : Nat} (hDC : D < C) {s s' : MainState} (hs : Inv s)
    (hstep : Step D C s s') : Inv s' := by
  cases hstep with
  | tick inp t => exact inv_tick hDC hs inp
  | advance t hnp => exact inv_advance hs hnp
  | fireFlash t rnd hl hd => exact inv_fireFlash hs rnd
  | fireStop t hl hd => exact inv_fireStop hs
  | fireCooldown t hl hd => exact inv_fireCooldown hs

theorem reachable_inv {D C : Nat} (hDC : D < C) {s : MainState}
    (h : Reachable D C s) : Inv s := by
  induction h with
  | refl => exact inv_initState
  | step hr hstep ih => exact inv_step hDC ih hstep

/-- When the cooldown timer is due, the flash-toggle timer is already dead:
its stop timer had a strictly earlier deadline. -/
theorem cooldown_due_flash_dead {s : MainState}
    (hs : Inv s) (hl : s.cooldown.live = true) (hd : s.cooldown.deadline = s.now) :
    s.ledFlash.live = false := by
  cases hfl : s.ledFlash.live with
  | false => rfl
  | true =>
    obtain ⟨hstop, hlt⟩ := hs.flashBounded hl hfl
    have hle := hs.stopOk hstop
    omega

/-- The `demoIdle` and `demoActive` states are reachable. -/
theorem demoActive_reachable :
    Reachable LED_FLASH_TIME_MS TOTAL_COOLDOWN_MS demoActive := by
  have h1 : Reachable LED_FLASH_TIME_MS TOTAL_COOLDOWN_MS demoIdle :=
    Reachable.step Reachable.refl (Step.tick inpInitOk initState)
  exact Reachable.step h1 (Step.tick inpMotion demoIdle)

/-- With `D = 2 > C = 1`, an `Idle` state with the flash-toggle timer still
armed is reachable: activation at time 0, clock advance to 1, cooldown fires
while the flash timers are still pending. -/
theorem demoBadIdle_reachable : Reachable 2 1 demoBadIdle := by
  have h1 : Reachable 2 1 demoIdleS :=
    Reachable.step Reachable.refl (Step.tick inpInitOk initState)
  have h2 : Reachable 2 1 demoActiveS :=
    Reachable.step h1 (Step.tick inpMotion demoIdleS)
  have h3 : Reachable 2 1 demoAdvS :=
    Reachable.step h2 (Step.advance demoActiveS (by decide))
  exact Reachable.step h3 (Step.fireCooldown demoAdvS (by decide) (by decide))

/-! ### Claim C3 -/

/-- C3: in every reachable state of the alert state machine (with the shipped
constants, flash 21 s < cooldown 23 s), `SystemState = Active` implies the
cooldown timer is live; and whenever the cooldown timer fires, the state
becomes `Idle` and the flash-toggle timer is no longer live. -/
theorem C3_cooldown_invariant (s : MainState)
    (h : Reachable LED_FLASH_TIME_MS TOTAL_COOLDOWN_MS s) :
    (s.current = SMState.active → s.cooldown.live = true) ∧
    (s.cooldown.live = true → s.cooldown.deadline = s.now →
      (fireCooldownFn s).current = SMState.idle ∧
      (fireCooldownFn s).ledFlash.live = false) := by
  have hDC : LED_FLASH_TIME_MS < TOTAL_COOLDOWN_MS := by decide
  have hInv := reachable_inv hDC h
  refine ⟨hInv.activeCd, fun hl hd => ⟨rfl, ?_⟩⟩
  show s.ledFlash.live = false
  exact cooldown_due_flash_dead hInv hl hd

/-- C3 (witness): in the concrete reachable `Active` state after a motion
tick, the cooldown timer is live. -/
theorem C3_cooldown_invariant_witness : demoActive.cooldown.live = true :=
  (C3_cooldown_invariant demoActive demoActive_reachable).1 (by decide)

/-! ### Claim C4 -/

/-- C4 (counterexample): with flash duration `D = 2` and cooldown `C = 1`
(`D > C`), the flash-stop timer is scheduled with its full period `D = 2`;
nothing clamps it to `C - 1 = 0`. -/
theorem C4_clamp_counterexample :
    ¬ ((activate 2 1 demoIdleS).ledStop.period = 1 - 1) := by
  decide

/-- C4 (amended): the implementation performs no clamping — the flash-stop
timer is always scheduled at the configured flash duration `D`, and when
`D > C` the flash-toggle timer remains live into the next `Idle` period
(witnessed by a reachable state at `D = 2, C = 1`).  The invariant is upheld
only because the shipped constants satisfy
`LED_FLASH_TIME_MS < TOTAL_COOLDOWN_MS`. -/
theorem C4_clamp_amended :
    (∀ (D C : Nat) (s : MainState),
      (activate D C s).ledStop.period = D ∧
      (activate D C s).ledStop.deadline = s.now + D) ∧
    (Reachable 2 1 demoBadIdle ∧ demoBadIdle.current = SMState.idle ∧
      demoBadIdle.ledFlash.live = true) ∧
    LED_FLASH_TIME_MS < TOTAL_COOLDOWN_MS :=
  ⟨fun _ _ _ => ⟨rfl, rfl⟩,
   ⟨demoBadIdle_reachable, by decide, by decide⟩,
   by decide⟩

/-! ### Claim C5 -/

/-- C5: when the liveness check observes a non-200 status with the link up,
`state_machine_logic` makes exactly one `reportError` call, its message
contains the observed status code, and the machine stays in `Init`. -/
theorem C5_ping_failure (D C : Nat) (inp : TickInput) (s : MainState)
    (status : Nat) (hcur : s.current = SMState.init) (hwifi : inp.wifiOk = true)
    (hresp : inp.pingResp = .resp status) (hst : status ≠ 200) :
    (state_machine_logic D C inp s).1 = s ∧
    (state_machine_logic D C inp s).2 =
      [Event.reportError (pingFailStatusMsg status)] ∧
    List.IsInfix (toString status).data (pingFailStatusMsg status).data := by
  refine ⟨?_, ?_, ?_⟩
  · simp [state_machine_logic, hcur, hwifi, hresp, ping_api, hst]
  · simp [state_machine_logic, hcur, hwifi, hresp, ping_api, hst]
  · have hdata : (pingFailStatusMsg status).data =
        ("API Ping Failed: Server returned HTTP " : String).data ++
          (toString status).data :=
      String.data_append _ _
    rw [hdata]
    exact (List.suffix_append _ _).isInfix

/-- C5 (witness): a 404 ping answer at boot produces exactly the one report
call with the status in the message, and the state stays `Init`. -/
theorem C5_ping_failure_witness :
    (state_machine_logic LED_FLASH_TIME_MS TOTAL_COOLDOWN_MS inpPing404
      initState).2 = [Event.reportError (pingFailStatusMsg 404)] :=
  (C5_ping_failure LED_FLASH_TIME_MS TOTAL_COOLDOWN_MS inpPing404 initState 404
    rfl rfl rfl (by decide)).2.1

/-! ### Claim C6 -/

/-- C6: `log_error_to_web` sends no request at all when the link is down (the
link is checked before attempting), and with the link up it attempts exactly
one POST to the log endpoint whatever the outcome of that POST — in
particular its own failure (non-200 or raise) triggers no further report. -/
theorem C6_report_error_no_recursion (out : HttpOutcome) (msg : String) :
    log_error_to_web false out msg = .ok [] ∧
    log_error_to_web true out msg = .ok [(API_LOG_ENDPOINT, msg)] := by
  refine ⟨rfl, ?_⟩
  cases out with
  | resp s => by_cases h : s = 200 <;> simp [log_error_to_web, urequests_post, h]
  | exc e => rfl

/-! ### Claim C8 -/

/-- C8 (counterexample): in the concrete motion tick, the transition to
`Active` is the LAST event — it does not happen before the flash-toggle timer
scheduling. -/
theorem C8_ordering_counterexample :
    ¬ (demoMotionEvents.indexOf (Event.stateChange SMState.active) <
       demoMotionEvents.indexOf Event.schedFlash) := by
  decide

/-- C8 (amended): on a sensor-triggered activation in `Idle`, the event order
is: the motion POST (with its possible error report), then the three timer
schedulings in the order flash-toggle, flash-stop, cooldown, and the
transition of `SystemState` into `Active` happens last — after the three
schedulings. -/
theorem C8_ordering_amended (D C : Nat) (inp : TickInput) (s : MainState)
    (hcur : s.current = SMState.idle) (hpir : inp.pir = true) :
    (state_machine_logic D C inp s).2 =
      Event.httpPost :: (call_api_post inp.postResp).map Event.reportError
        ++ [Event.schedFlash, Event.schedStop, Event.schedCooldown,
            Event.stateChange SMState.active] ∧
    (state_machine_logic D C inp s).1 = activate D C s := by
  constructor <;> simp [state_machine_logic, hcur, hpir]

/-- C8 (witness): the concrete motion tick emits the post, the three
schedulings, then the state change. -/
theorem C8_ordering_amended_witness :
    (state_machine_logic LED_FLASH_TIME_MS TOTAL_COOLDOWN_MS inpMotion
      demoIdle).2 =
      Event.httpPost :: (call_api_post inpMotion.postResp).map Event.reportError
        ++ [Event.schedFlash, Event.schedStop, Event.schedCooldown,
            Event.stateChange SMState.active] :=
  (C8_ordering_amended LED_FLASH_TIME_MS TOTAL_COOLDOWN_MS inpMotion demoIdle
    (by decide) rfl).1

/-! ### Claim C9 -/

/-- C9: for every link state and every outcome of the POST (200, non-200 or a
raised transport exception), `log_error_to_web` returns normally — it is never
`.error`, so no exception propagates to the control loop. -/
theorem C9_report_error_total (linkUp : Bool) (out : HttpOutcome) (msg : String) :
    ∃ reqs, log_error_to_web linkUp out msg = .ok reqs := by
  cases linkUp with
  | false => exact ⟨[], rfl⟩
  | true =>
    cases out with
    | resp s =>
      refine ⟨[(API_LOG_ENDPOINT, msg)], ?_⟩
      by_cases h : s = 200 <;> simp [log_error_to_web, urequests_post, h]
    | exc e => exact ⟨[(API_LOG_ENDPOINT, msg)], rfl⟩

end HalloweenPumpkin
